import Mathlib

/-!
Verification development for `collection_size_query.py`, a script that pages
through a repository's collections-listing API and gathers "small" collections
(item count within an inclusive range) by issuing one search query per
collection.

The embedding is shallow: the HTTP server is an explicit environment `Env`
mapping a page offset to a batch of collection summaries (or an HTTP error)
and a collection id to a search response (or an HTTP error).  The Python
functions `fetch_collection_item_count`, the body of the `for entry in batch`
loop (`processBatch`), the `while` loop (`scanLoop`, with fuel bounding the
number of outer iterations, since the Python loop can in principle page
forever) and `main`'s printing are translated definition by definition.
Exceptions are `Except.error` values; a caught exception is consumed where the
`try`/`except` consumes it; `KeyError` from `summary['id']` is an error raised
outside the `try` block.  Observable effects (HTTP requests, warning and error
log lines) are recorded in an event trace so that "issues no further request"
and "logs a warning" are statable.
-/

/-- Python constant `MIN_ITEMS_CONSIDERED_SMALL: int = 5`. -/
def MIN_ITEMS_CONSIDERED_SMALL : Int := 5

/-- Python constant `MAX_ITEMS_CONSIDERED_SMALL: int = 50`. -/
def MAX_ITEMS_CONSIDERED_SMALL : Int := 50

/-- Python constant `COLLECTIONS_PER_BATCH_SIZE: int = 100`. -/
def COLLECTIONS_PER_BATCH_SIZE : Nat := 100

/-- Python constant `MAX_COLLECTIONS_TO_CHECK: int = 200`. -/
def MAX_COLLECTIONS_TO_CHECK : Nat := 200

/-- Python constant `COLLECTIONS_TO_GATHER_SIZE: int = 2`. -/
def COLLECTIONS_TO_GATHER_SIZE : Nat := 2

/-- A collection summary as returned by the listing endpoint: a JSON object
with possibly an `id` key and possibly a `name` key.  `id = none` models a
summary dictionary lacking the `'id'` key (so `summary['id']` raises
`KeyError`); `name = none` models a missing `'name'` key (`summary.get('name')`
returns `None`). -/
structure Summary where
  id : Option String
  name : Option String
deriving Repr, DecidableEq

/-- A result record appended by `find_small_collections`:
`{'id': collection_id, 'name': name, 'count': count}`. -/
structure CollectionInfo where
  id : String
  name : Option String
  count : Int
deriving Repr, DecidableEq

/-- The part of the search API's JSON reply that
`fetch_collection_item_count` reads: `data.get('response', {}).get('numFound')`.
`response = none` models a reply without the `'response'` key, and
`numFound = none` inside the body models a `'response'` object without the
`'numFound'` key. -/
structure SearchBody where
  numFound : Option Int
deriving Repr, DecidableEq

/-- The search API's JSON reply (the fields the script reads). -/
structure SearchData where
  response : Option SearchBody
deriving Repr, DecidableEq

/-- The HTTP server as seen by the script.  `batches start` is the batch of
collection summaries delivered by `fetch_collections_batch` for page offset
`start` (`Except.error` models an HTTP error raised by `raise_for_status`);
`search cid` is the reply to the per-collection search query (again with
`Except.error` an HTTP error). -/
structure Env where
  batches : Nat → Except String (List Summary)
  search : String → Except String SearchData

/-- `fetch_collection_item_count`: submits the search query for
`collection_id` and returns `data.get('response', {}).get('numFound')`;
an HTTP error propagates as `Except.error`. -/
def fetchCollectionItemCount (env : Env) (collection_id : String) :
    Except String (Option Int) :=
  match env.search collection_id with
  | .error e => .error e
  | .ok data => .ok ((data.response.getD { numFound := none }).numFound)

/-- The mutable state of `find_small_collections`: the accumulated `results`,
the `checked` counter and the `done` flag. -/
structure ScanState where
  results : List CollectionInfo
  checked : Nat
  done : Bool
deriving Repr, DecidableEq

/-- An observable effect of the scan: an HTTP request to the listing endpoint,
an HTTP request to the search endpoint (preceded by the fixed sleep), a
`log.warning` line or a `log.error` line. -/
inductive Event where
  | batchFetch (start : Nat)
  | countFetch (collection_id : String)
  | logWarning (msg : String)
  | logError (msg : String)
deriving Repr, DecidableEq

/-- The `log.warning(f'No count returned for {collection_id}')` message. -/
def warnMsg (collection_id : String) : String :=
  "No count returned for " ++ collection_id

/-- The `log.error(f'Error processing collection {collection_id}: {str(e)}')`
message. -/
def errMsg (collection_id : String) (e : String) : String :=
  "Error processing collection " ++ collection_id ++ ": " ++ e

/-- The `KeyError` raised by `summary['id']` on a summary without an `'id'`
key. -/
def keyErrorId : String := "KeyError: id"

/-- The body of `for entry in batch:` inside `find_small_collections`,
processing the remaining entries of the current batch from state `st`.
Returns the state at the end of the batch (`Except.error` for an exception
that escapes the loop, such as the `KeyError` from `summary['id']`) together
with the trace of requests and warning/error log lines it emits.  Mirrors the
source: the `len(results) > COLLECTIONS_TO_GATHER_SIZE or checked >=
MAX_COLLECTIONS_TO_CHECK` guard sets `done` and breaks; a count-fetch
exception is caught, logged and followed by `checked += 1`; a `None` count
logs a warning and `continue`s (skipping the increment); an in-range count
appends the result record before the increment. -/
def processBatch (env : Env) : List Summary → ScanState →
    Except String ScanState × List Event
  | [], st => (.ok st, [])
  | entry :: rest, st =>
    if st.results.length > COLLECTIONS_TO_GATHER_SIZE ∨
        st.checked ≥ MAX_COLLECTIONS_TO_CHECK then
      (.ok { st with done := true }, [])
    else
      match entry.id with
      | none => (.error keyErrorId, [])
      | some collection_id =>
        match fetchCollectionItemCount env collection_id with
        | .error e =>
          let next := processBatch env rest { st with checked := st.checked + 1 }
          (next.1, .countFetch collection_id ::
            .logError (errMsg collection_id e) :: next.2)
        | .ok none =>
          let next := processBatch env rest st
          (next.1, .countFetch collection_id ::
            .logWarning (warnMsg collection_id) :: next.2)
        | .ok (some count) =>
          let st1 :=
            if MIN_ITEMS_CONSIDERED_SMALL ≤ count ∧
                count ≤ MAX_ITEMS_CONSIDERED_SMALL then
              { st with results := st.results ++
                [{ id := collection_id, name := entry.name, count := count }] }
            else st
          let next := processBatch env rest { st1 with checked := st1.checked + 1 }
          (next.1, .countFetch collection_id :: next.2)

/-- Outcome of the whole scan: the returned result list, an uncaught
exception, or fuel exhaustion (the Python `while` loop still running after
the given number of iterations). -/
inductive ScanResult where
  | finished (results : List CollectionInfo)
  | raised (msg : String)
  | fuelOut
deriving Repr, DecidableEq

/-- The `while not done and checked < MAX_COLLECTIONS_TO_CHECK and
len(results) <= COLLECTIONS_TO_GATHER_SIZE:` loop of
`find_small_collections`, with `fuel` bounding the number of iterations.
Each iteration fetches the batch at offset `start` (an HTTP error propagates
uncaught), breaks on an empty batch, runs the inner loop, and recurses at
`start + COLLECTIONS_PER_BATCH_SIZE`. -/
def scanLoop (env : Env) : Nat → Nat → ScanState → ScanResult × List Event
  | fuel, start, st =>
    if st.done = false ∧ st.checked < MAX_COLLECTIONS_TO_CHECK ∧
        st.results.length ≤ COLLECTIONS_TO_GATHER_SIZE then
      match fuel with
      | 0 => (.fuelOut, [])
      | fuel + 1 =>
        match env.batches start with
        | .error e => (.raised e, [.batchFetch start])
        | .ok [] => (.finished st.results, [.batchFetch start])
        | .ok (entry :: restBatch) =>
          match processBatch env (entry :: restBatch) st with
          | (.error e, tr) => (.raised e, .batchFetch start :: tr)
          | (.ok st', tr) =>
            let next := scanLoop env fuel (start + COLLECTIONS_PER_BATCH_SIZE) st'
            (next.1, .batchFetch start :: (tr ++ next.2))
    else (.finished st.results, [])

/-- `find_small_collections(server_root)`: runs the scan from
`results = []`, `checked = 0`, `start = 0`, `done = False`. -/
def findSmallCollections (env : Env) (fuel : Nat) : ScanResult × List Event :=
  scanLoop env fuel 0 { results := [], checked := 0, done := false }

/-- The lowercase hexadecimal digit for `n < 16`, as CPython writes it in a
`\xNN` escape. -/
def hexDigit (n : Nat) : Char :=
  if n < 10 then Char.ofNat (48 + n) else Char.ofNat (87 + n)

/-- One escaped character of Python's `repr` of a string, for quote
character `q`: the backslash and the active quote are escaped, newline,
carriage return and tab use their short escapes, every other ASCII control
character (code below 0x20, and 0x7f) becomes a lowercase `\xNN` escape as
in CPython, and the remaining characters are kept. -/
def pyCharEscape (q : Char) (c : Char) : List Char :=
  if c = '\\' then ['\\', '\\']
  else if c = q then ['\\', q]
  else if c = '\n' then ['\\', 'n']
  else if c = '\r' then ['\\', 'r']
  else if c = '\t' then ['\\', 't']
  else if c.toNat < 0x20 ∨ c.toNat = 0x7f then
    ['\\', 'x', hexDigit (c.toNat / 16), hexDigit (c.toNat % 16)]
  else [c]

/-- Python's `repr` of a string: single-quoted, except double-quoted when the
string contains a single quote but no double quote. -/
def pyReprString (s : String) : String :=
  let q : Char := if s.toList.contains '\'' ∧ ¬ s.toList.contains '"'
    then '"' else '\''
  String.mk ([q] ++ (s.toList.map (pyCharEscape q)).flatten ++ [q])

/-- Python's `repr` applied to `str | None` (the `!r` conversion in
`f'{info["id"]} ({info["name"]!r}) has {info["count"]} items'`):
`None` prints as `None`, a string prints quoted. -/
def pyRepr : Option String → String
  | none => "None"
  | some s => pyReprString s

/-- The line `main` prints for one result record:
`f'{info["id"]} ({info["name"]!r}) has {info["count"]} items'`. -/
def formatLine (info : CollectionInfo) : String :=
  info.id ++ " (" ++ pyRepr info.name ++ ") has " ++ toString info.count ++ " items"

/-- `main()`: calls `find_small_collections` and prints one line per result
record, in list order.  `none` when the scan raises (the lines are never
printed) or the fuel runs out. -/
def mainOutput (env : Env) (fuel : Nat) : Option (List String) :=
  match (findSmallCollections env fuel).1 with
  | .finished rs => some (rs.map formatLine)
  | _ => none

/-- C2: once `len(results) > COLLECTIONS_TO_GATHER_SIZE` or `checked >=
MAX_COLLECTIONS_TO_CHECK`, the scan examines no further collection — the
inner loop breaks with `done` set, emitting no request and no log line — and
the `while` loop returns the accumulated results with no further event. -/
theorem spec2proof_C2 :
    (∀ (env : Env) (fuel start : Nat) (st : ScanState),
        (st.results.length > COLLECTIONS_TO_GATHER_SIZE ∨
          st.checked ≥ MAX_COLLECTIONS_TO_CHECK) →
        scanLoop env fuel start st = (.finished st.results, [])) ∧
    (∀ (env : Env) (entry : Summary) (rest : List Summary) (st : ScanState),
        (st.results.length > COLLECTIONS_TO_GATHER_SIZE ∨
          st.checked ≥ MAX_COLLECTIONS_TO_CHECK) →
        processBatch env (entry :: rest) st = (.ok { st with done := true }, [])) ∧
    (∀ (env : Env) (fuel start : Nat) (st : ScanState), st.done = true →
        scanLoop env fuel start st = (.finished st.results, [])) := by
  refine ⟨?_, ?_, ?_⟩
  · intro env fuel start st h
    have hcond : ¬ (st.done = false ∧ st.checked < MAX_COLLECTIONS_TO_CHECK ∧
        st.results.length ≤ COLLECTIONS_TO_GATHER_SIZE) := by
      rintro ⟨-, hc, hl⟩
      omega
    cases fuel with
    | zero => simp only [scanLoop]; rw [if_neg hcond]
    | succ n => simp only [scanLoop]; rw [if_neg hcond]
  · intro env entry rest st h
    simp only [processBatch]
    rw [if_pos h]
  · intro env fuel start st h
    have hcond : ¬ (st.done = false ∧ st.checked < MAX_COLLECTIONS_TO_CHECK ∧
        st.results.length ≤ COLLECTIONS_TO_GATHER_SIZE) := by
      rintro ⟨hd, -, -⟩
      rw [h] at hd
      exact Bool.noConfusion hd
    cases fuel with
    | zero => simp only [scanLoop]; rw [if_neg hcond]
    | succ n => simp only [scanLoop]; rw [if_neg hcond]

/-- Witness for C2 at a concrete state holding three gathered results. -/
theorem spec2proof_C2_witness :
    scanLoop ⟨fun _ => .ok [], fun _ => .ok ⟨none⟩⟩ 0 0
      ⟨[⟨"a", none, 10⟩, ⟨"b", none, 10⟩, ⟨"c", none, 10⟩], 0, false⟩ =
      (.finished [⟨"a", none, 10⟩, ⟨"b", none, 10⟩, ⟨"c", none, 10⟩], []) :=
  spec2proof_C2.1 _ 0 0 _ (Or.inl (by decide))

/-- C3: when the batch fetch at offset `start` returns an empty list, the
scan stops at once — the only event of the rest of the run is that one batch
request, so no further batch or count request is issued — and the results
accumulated so far are returned. -/
theorem spec2proof_C3 :
    ∀ (env : Env) (fuel start : Nat) (st : ScanState),
      st.done = false → st.checked < MAX_COLLECTIONS_TO_CHECK →
      st.results.length ≤ COLLECTIONS_TO_GATHER_SIZE →
      env.batches start = .ok [] →
      scanLoop env (fuel + 1) start st =
        (.finished st.results, [.batchFetch start]) := by
  intro env fuel start st hd hc hl hb
  simp only [scanLoop]
  rw [if_pos ⟨hd, hc, hl⟩, hb]

/-- Witness for C3 at a concrete environment whose first page is empty. -/
theorem spec2proof_C3_witness :
    scanLoop ⟨fun _ => .ok [], fun _ => .ok ⟨none⟩⟩ 1 0 ⟨[], 0, false⟩ =
      (.finished [], [.batchFetch 0]) :=
  spec2proof_C3 _ 0 0 _ rfl (by decide) (by decide) rfl

/-- C4: when fetching the item count of the current entry raises, the
exception is caught — the batch keeps processing `rest` instead of
propagating an error — the error is logged, the collection is excluded (the
continuation state keeps the same `results`, only `checked` grows), and the
scan goes on with the next collection. -/
theorem spec2proof_C4 :
    ∀ (env : Env) (entry : Summary) (rest : List Summary) (st : ScanState)
      (cid e : String),
      st.results.length ≤ COLLECTIONS_TO_GATHER_SIZE →
      st.checked < MAX_COLLECTIONS_TO_CHECK →
      entry.id = some cid →
      fetchCollectionItemCount env cid = .error e →
      processBatch env (entry :: rest) st =
        ((processBatch env rest { st with checked := st.checked + 1 }).1,
          .countFetch cid :: .logError (errMsg cid e) ::
            (processBatch env rest { st with checked := st.checked + 1 }).2) := by
  intro env entry rest st cid e hl hc hid hf
  have hguard : ¬ (st.results.length > COLLECTIONS_TO_GATHER_SIZE ∨
      st.checked ≥ MAX_COLLECTIONS_TO_CHECK) := by omega
  simp only [processBatch]
  rw [if_neg hguard]
  simp only [hid, hf]

/-- Witness for C4 at a concrete entry whose count fetch raises. -/
theorem spec2proof_C4_witness :
    processBatch ⟨fun _ => .ok [], fun _ => .error "boom"⟩
      [⟨some "a", none⟩] ⟨[], 0, false⟩ =
      (.ok ⟨[], 1, false⟩,
        [.countFetch "a", .logError (errMsg "a" "boom")]) :=
  spec2proof_C4 _ ⟨some "a", none⟩ [] ⟨[], 0, false⟩ "a" "boom"
    (by decide) (by decide) rfl rfl

/-- C5: an HTTP error raised while fetching a batch is not caught anywhere in
`find_small_collections`: the very same error escapes the loop (`raised e`,
so no result list is returned) right after that one batch request. -/
theorem spec2proof_C5 :
    ∀ (env : Env) (fuel start : Nat) (st : ScanState) (e : String),
      st.done = false → st.checked < MAX_COLLECTIONS_TO_CHECK →
      st.results.length ≤ COLLECTIONS_TO_GATHER_SIZE →
      env.batches start = .error e →
      scanLoop env (fuel + 1) start st = (.raised e, [.batchFetch start]) := by
  intro env fuel start st e hd hc hl hb
  simp only [scanLoop]
  rw [if_pos ⟨hd, hc, hl⟩, hb]

/-- Witness for C5 at a concrete environment whose batch fetch raises. -/
theorem spec2proof_C5_witness :
    scanLoop ⟨fun _ => .error "http 500", fun _ => .ok ⟨none⟩⟩ 1 0 ⟨[], 0, false⟩ =
      (.raised "http 500", [.batchFetch 0]) :=
  spec2proof_C5 _ 0 0 _ "http 500" rfl (by decide) (by decide) rfl

/-- C9: a collection whose fetched count is `None` does not increment
`checked` — the batch continues from the very same state `st`, the
`continue` having bypassed the increment — whereas a collection whose count
fetch raises a caught exception continues from `st` with `checked + 1`. -/
theorem spec2proof_C9 :
    (∀ (env : Env) (entry : Summary) (rest : List Summary) (st : ScanState)
        (cid : String),
        st.results.length ≤ COLLECTIONS_TO_GATHER_SIZE →
        st.checked < MAX_COLLECTIONS_TO_CHECK →
        entry.id = some cid →
        fetchCollectionItemCount env cid = .ok none →
        (processBatch env (entry :: rest) st).1 = (processBatch env rest st).1) ∧
    (∀ (env : Env) (entry : Summary) (rest : List Summary) (st : ScanState)
        (cid e : String),
        st.results.length ≤ COLLECTIONS_TO_GATHER_SIZE →
        st.checked < MAX_COLLECTIONS_TO_CHECK →
        entry.id = some cid →
        fetchCollectionItemCount env cid = .error e →
        (processBatch env (entry :: rest) st).1 =
          (processBatch env rest { st with checked := st.checked + 1 }).1) := by
  constructor
  · intro env entry rest st cid hl hc hid hf
    have hguard : ¬ (st.results.length > COLLECTIONS_TO_GATHER_SIZE ∨
        st.checked ≥ MAX_COLLECTIONS_TO_CHECK) := by omega
    simp only [processBatch]
    rw [if_neg hguard]
    simp only [hid, hf]
  · intro env entry rest st cid e hl hc hid hf
    have hguard : ¬ (st.results.length > COLLECTIONS_TO_GATHER_SIZE ∨
        st.checked ≥ MAX_COLLECTIONS_TO_CHECK) := by omega
    simp only [processBatch]
    rw [if_neg hguard]
    simp only [hid, hf]

/-- Witness for C9 at a concrete entry whose count comes back absent. -/
theorem spec2proof_C9_witness :
    (processBatch ⟨fun _ => .ok [], fun _ => .ok ⟨some ⟨none⟩⟩⟩
      [⟨some "a", none⟩] ⟨[], 0, false⟩).1 =
      (processBatch ⟨fun _ => .ok [], fun _ => .ok ⟨some ⟨none⟩⟩⟩ [] ⟨[], 0, false⟩).1 :=
  spec2proof_C9.1 _ ⟨some "a", none⟩ [] ⟨[], 0, false⟩ "a"
    (by decide) (by decide) rfl rfl

/-- A server whose single batch holds three small collections followed by a
summary without an `'id'` key. -/
def envC10 : Env where
  batches := fun start =>
    if start = 0 then
      .ok [⟨some "a", some "A"⟩, ⟨some "b", some "B"⟩,
        ⟨some "c", some "C"⟩, ⟨none, none⟩]
    else .ok []
  search := fun _ => .ok ⟨some ⟨some 10⟩⟩

/-- C10 fails as stated for a batch merely containing an id-less summary: on
a server whose first batch is three small collections followed by a summary
without an `'id'` key, the guard `len(results) > COLLECTIONS_TO_GATHER_SIZE`
breaks the inner loop before that summary is reached, so the scan returns
its three results normally instead of raising a `KeyError`. -/
theorem spec2proof_C10_counterexample :
    envC10.batches 0 = .ok [⟨some "a", some "A"⟩, ⟨some "b", some "B"⟩,
      ⟨some "c", some "C"⟩, ⟨none, none⟩] ∧
    (⟨none, none⟩ : Summary).id = none ∧
    (findSmallCollections envC10 1).1 =
      .finished [{ id := "a", name := some "A", count := 10 },
        { id := "b", name := some "B", count := 10 },
        { id := "c", name := some "C", count := 10 }] :=
  ⟨rfl, rfl, rfl⟩

/-- C10 amended: a summary without the `'id'` key aborts the whole scan with
an uncaught `KeyError` exactly when the scan reaches it — `summary['id']`
runs before the `try` block, so the per-collection handling does not cover
it.  Whenever such a summary heads the entries still to process in a state
where the break-guard has not fired, the inner loop stops at once with the
error and an empty trace (no count request for it); and any batch whose
processing raises makes the whole scan abort with that same error, returning
no result list.  A batch that merely contains such a summary need not abort:
the guard can break the loop first (see the counterexample). -/
theorem spec2proof_C10_amended :
    (∀ (env : Env) (entry : Summary) (rest : List Summary) (st : ScanState),
        st.results.length ≤ COLLECTIONS_TO_GATHER_SIZE →
        st.checked < MAX_COLLECTIONS_TO_CHECK →
        entry.id = none →
        processBatch env (entry :: rest) st = (.error keyErrorId, [])) ∧
    (∀ (env : Env) (fuel start : Nat) (st : ScanState) (batch : List Summary)
        (e : String) (tr : List Event),
        st.done = false → st.checked < MAX_COLLECTIONS_TO_CHECK →
        st.results.length ≤ COLLECTIONS_TO_GATHER_SIZE →
        env.batches start = .ok batch →
        processBatch env batch st = (.error e, tr) →
        scanLoop env (fuel + 1) start st =
          (.raised e, .batchFetch start :: tr)) := by
  constructor
  · intro env entry rest st hl hc hid
    have hguard : ¬ (st.results.length > COLLECTIONS_TO_GATHER_SIZE ∨
        st.checked ≥ MAX_COLLECTIONS_TO_CHECK) := by omega
    simp only [processBatch]
    rw [if_neg hguard]
    simp only [hid]
  · intro env fuel start st batch e tr hd hc hl hb hpb
    cases batch with
    | nil =>
      simp only [processBatch, Prod.mk.injEq] at hpb
      exact Except.noConfusion hpb.1
    | cons entry restBatch =>
      simp only [scanLoop]
      rw [if_pos ⟨hd, hc, hl⟩]
      simp only [hb, hpb]

/-- Witness for the amended C10: an id-less summary reached at the head of a
batch stops the inner loop with the `KeyError`, and the scan aborts. -/
theorem spec2proof_C10_witness :
    processBatch ⟨fun _ => .ok [⟨none, some "Nameless"⟩], fun _ => .ok ⟨none⟩⟩
      [⟨none, some "Nameless"⟩] ⟨[], 0, false⟩ = (.error keyErrorId, []) ∧
    scanLoop ⟨fun _ => .ok [⟨none, some "Nameless"⟩], fun _ => .ok ⟨none⟩⟩ 1 0
      ⟨[], 0, false⟩ = (.raised keyErrorId, [.batchFetch 0]) :=
  ⟨spec2proof_C10_amended.1 _ ⟨none, some "Nameless"⟩ [] ⟨[], 0, false⟩
      (by decide) (by decide) rfl,
    spec2proof_C10_amended.2 _ 0 0 ⟨[], 0, false⟩ [⟨none, some "Nameless"⟩]
      keyErrorId [] rfl (by decide) (by decide) rfl
      (spec2proof_C10_amended.1 _ ⟨none, some "Nameless"⟩ [] ⟨[], 0, false⟩
        (by decide) (by decide) rfl)⟩

/-- C6: a search reply without the nested `numFound` field (whether the
`'response'` object is missing or just its `'numFound'` key) makes
`fetch_collection_item_count` return `None` rather than raise; the manager
then logs a warning for the collection, leaves `results` untouched (the
continuation state is `st` itself) and keeps scanning the rest of the
batch. -/
theorem spec2proof_C6 :
    (∀ (env : Env) (cid : String) (data : SearchData),
        env.search cid = .ok data →
        (data.response = none ∨
          ∃ body, data.response = some body ∧ body.numFound = none) →
        fetchCollectionItemCount env cid = .ok none) ∧
    (∀ (env : Env) (entry : Summary) (rest : List Summary) (st : ScanState)
        (cid : String),
        st.results.length ≤ COLLECTIONS_TO_GATHER_SIZE →
        st.checked < MAX_COLLECTIONS_TO_CHECK →
        entry.id = some cid →
        fetchCollectionItemCount env cid = .ok none →
        processBatch env (entry :: rest) st =
          ((processBatch env rest st).1,
            .countFetch cid :: .logWarning (warnMsg cid) ::
              (processBatch env rest st).2)) := by
  constructor
  · intro env cid data hs hmiss
    simp only [fetchCollectionItemCount, hs]
    rcases hmiss with h | ⟨body, hb, hn⟩
    · rw [h]
      rfl
    · rw [hb]
      simp [hn]
  · intro env entry rest st cid hl hc hid hf
    have hguard : ¬ (st.results.length > COLLECTIONS_TO_GATHER_SIZE ∨
        st.checked ≥ MAX_COLLECTIONS_TO_CHECK) := by omega
    simp only [processBatch]
    rw [if_neg hguard]
    simp only [hid, hf]

/-- Witness for C6 at a concrete reply lacking the response object. -/
theorem spec2proof_C6_witness :
    fetchCollectionItemCount ⟨fun _ => .ok [], fun _ => .ok ⟨none⟩⟩ "a" = .ok none :=
  spec2proof_C6.1 _ "a" ⟨none⟩ rfl (Or.inl rfl)

/-- Every record in the state reached by the inner loop either was already in
the starting state's results or has an item count within the configured
inclusive bounds. -/
theorem processBatch_mem_of_ok (env : Env) :
    ∀ (batch : List Summary) (st st' : ScanState),
      (processBatch env batch st).1 = .ok st' →
      ∀ info ∈ st'.results, info ∈ st.results ∨
        (MIN_ITEMS_CONSIDERED_SMALL ≤ info.count ∧
          info.count ≤ MAX_ITEMS_CONSIDERED_SMALL) := by
  intro batch
  induction batch with
  | nil =>
    intro st st' h info hmem
    simp only [processBatch, Except.ok.injEq] at h
    subst h
    exact Or.inl hmem
  | cons entry rest ih =>
    intro st st' h info hmem
    simp only [processBatch] at h
    by_cases hguard : st.results.length > COLLECTIONS_TO_GATHER_SIZE ∨
        st.checked ≥ MAX_COLLECTIONS_TO_CHECK
    · rw [if_pos hguard] at h
      simp only [Except.ok.injEq] at h
      subst h
      exact Or.inl hmem
    · rw [if_neg hguard] at h
      cases hid : entry.id with
      | none =>
        simp only [hid] at h
        exact Except.noConfusion h
      | some cid =>
        simp only [hid] at h
        cases hf : fetchCollectionItemCount env cid with
        | error e =>
          simp only [hf] at h
          rcases ih _ _ h info hmem with hin | hsmall
          · exact Or.inl hin
          · exact Or.inr hsmall
        | ok copt =>
          cases copt with
          | none =>
            simp only [hf] at h
            exact ih _ _ h info hmem
          | some c =>
            simp only [hf] at h
            by_cases hsm : MIN_ITEMS_CONSIDERED_SMALL ≤ c ∧
                c ≤ MAX_ITEMS_CONSIDERED_SMALL
            · simp only [if_pos hsm] at h
              rcases ih _ _ h info hmem with hin | hsmall
              · rcases List.mem_append.mp hin with h1 | h2
                · exact Or.inl h1
                · rw [List.mem_singleton.mp h2]
                  exact Or.inr hsm
              · exact Or.inr hsmall
            · simp only [if_neg hsm] at h
              rcases ih _ _ h info hmem with hin | hsmall
              · exact Or.inl hin
              · exact Or.inr hsmall

/-- Every record in a result list returned by the `while` loop either was in
the starting state or has an in-range count. -/
theorem scanLoop_mem_of_finished (env : Env) :
    ∀ (fuel start : Nat) (st : ScanState) (rs : List CollectionInfo),
      (scanLoop env fuel start st).1 = .finished rs →
      ∀ info ∈ rs, info ∈ st.results ∨
        (MIN_ITEMS_CONSIDERED_SMALL ≤ info.count ∧
          info.count ≤ MAX_ITEMS_CONSIDERED_SMALL) := by
  intro fuel
  induction fuel with
  | zero =>
    intro start st rs h info hmem
    simp only [scanLoop] at h
    by_cases hcond : st.done = false ∧ st.checked < MAX_COLLECTIONS_TO_CHECK ∧
        st.results.length ≤ COLLECTIONS_TO_GATHER_SIZE
    · rw [if_pos hcond] at h
      simp at h
    · rw [if_neg hcond] at h
      simp only [ScanResult.finished.injEq] at h
      subst h
      exact Or.inl hmem
  | succ n ih =>
    intro start st rs h info hmem
    simp only [scanLoop] at h
    by_cases hcond : st.done = false ∧ st.checked < MAX_COLLECTIONS_TO_CHECK ∧
        st.results.length ≤ COLLECTIONS_TO_GATHER_SIZE
    · rw [if_pos hcond] at h
      cases hb : env.batches start with
      | error e =>
        simp only [hb] at h
        exact ScanResult.noConfusion h
      | ok batch =>
        cases batch with
        | nil =>
          simp only [hb, ScanResult.finished.injEq] at h
          subst h
          exact Or.inl hmem
        | cons entry restBatch =>
          simp only [hb] at h
          rcases hpb : processBatch env (entry :: restBatch) st with ⟨r, tr⟩
          cases r with
          | error e =>
            simp only [hpb] at h
            exact ScanResult.noConfusion h
          | ok st' =>
            simp only [hpb] at h
            have hpb1 : (processBatch env (entry :: restBatch) st).1 = .ok st' := by
              rw [hpb]
            rcases ih _ _ _ h info hmem with hin | hsmall
            · rcases processBatch_mem_of_ok env _ st st' hpb1 info hin with h1 | h2
              · exact Or.inl h1
              · exact Or.inr h2
            · exact Or.inr hsmall
    · rw [if_neg hcond] at h
      simp only [ScanResult.finished.injEq] at h
      subst h
      exact Or.inl hmem

/-- A three-collection server: collection `a` has 10 items, `b` has 3 items
and `c` has 51 items; the second page is empty. -/
def envC1 : Env where
  batches := fun start =>
    if start = 0 then
      .ok [⟨some "a", some "A"⟩, ⟨some "b", some "B"⟩, ⟨some "c", some "C"⟩]
    else .ok []
  search := fun cid =>
    if cid = "a" then .ok ⟨some ⟨some 10⟩⟩
    else if cid = "b" then .ok ⟨some ⟨some 3⟩⟩
    else .ok ⟨some ⟨some 51⟩⟩

/-- C1: a collection whose count is fetched as an integer `c` enters the
results of `find_small_collections` exactly when
`MIN_ITEMS_CONSIDERED_SMALL ≤ c ≤ MAX_ITEMS_CONSIDERED_SMALL`: every
returned record has an in-range count; the inner loop continues from a state
whose results gain the record exactly when `c` is in range; and on a server
with counts 10, 3 and 51 only the count-10 collection is returned. -/
theorem spec2proof_C1 :
    (∀ (env : Env) (fuel : Nat) (rs : List CollectionInfo),
        (findSmallCollections env fuel).1 = .finished rs →
        ∀ info ∈ rs, MIN_ITEMS_CONSIDERED_SMALL ≤ info.count ∧
          info.count ≤ MAX_ITEMS_CONSIDERED_SMALL) ∧
    (∀ (env : Env) (entry : Summary) (rest : List Summary) (st : ScanState)
        (cid : String) (c : Int),
        st.results.length ≤ COLLECTIONS_TO_GATHER_SIZE →
        st.checked < MAX_COLLECTIONS_TO_CHECK →
        entry.id = some cid →
        fetchCollectionItemCount env cid = .ok (some c) →
        ∃ st1 : ScanState,
          processBatch env (entry :: rest) st =
            ((processBatch env rest st1).1,
              .countFetch cid :: (processBatch env rest st1).2) ∧
          st1.checked = st.checked + 1 ∧ st1.done = st.done ∧
          st1.results = (if MIN_ITEMS_CONSIDERED_SMALL ≤ c ∧
              c ≤ MAX_ITEMS_CONSIDERED_SMALL then
            st.results ++ [{ id := cid, name := entry.name, count := c }]
          else st.results)) ∧
    (findSmallCollections envC1 2).1 =
      .finished [{ id := "a", name := some "A", count := 10 }] := by
  refine ⟨?_, ?_, ?_⟩
  · intro env fuel rs h info hmem
    rcases scanLoop_mem_of_finished env fuel 0 _ rs h info hmem with hin | hsmall
    · simp at hin
    · exact hsmall
  · intro env entry rest st cid c hl hc hid hf
    have hguard : ¬ (st.results.length > COLLECTIONS_TO_GATHER_SIZE ∨
        st.checked ≥ MAX_COLLECTIONS_TO_CHECK) := by omega
    refine ⟨⟨if MIN_ITEMS_CONSIDERED_SMALL ≤ c ∧ c ≤ MAX_ITEMS_CONSIDERED_SMALL
        then st.results ++ [{ id := cid, name := entry.name, count := c }]
        else st.results, st.checked + 1, st.done⟩, ?_, rfl, rfl, rfl⟩
    by_cases hsm : MIN_ITEMS_CONSIDERED_SMALL ≤ c ∧ c ≤ MAX_ITEMS_CONSIDERED_SMALL
    · simp only [processBatch]
      rw [if_neg hguard]
      simp only [hid, hf, if_pos hsm]
    · simp only [processBatch]
      rw [if_neg hguard]
      simp only [hid, hf, if_neg hsm]
  · rfl

/-- Witness for C1: the record returned on the concrete server has its count
within the bounds. -/
theorem spec2proof_C1_witness :
    MIN_ITEMS_CONSIDERED_SMALL ≤ (10 : Int) ∧
      (10 : Int) ≤ MAX_ITEMS_CONSIDERED_SMALL := by
  have h := spec2proof_C1.1 envC1 2
    [{ id := "a", name := some "A", count := 10 }] (by decide)
  exact h { id := "a", name := some "A", count := 10 } (by simp)

/-- The inner loop grows `results` past `COLLECTIONS_TO_GATHER_SIZE + 1`
never: an append happens only under the guard `len(results) ≤
COLLECTIONS_TO_GATHER_SIZE`. -/
theorem processBatch_length_le (env : Env) :
    ∀ (batch : List Summary) (st st' : ScanState),
      (processBatch env batch st).1 = .ok st' →
      st.results.length ≤ COLLECTIONS_TO_GATHER_SIZE + 1 →
      st'.results.length ≤ COLLECTIONS_TO_GATHER_SIZE + 1 := by
  intro batch
  induction batch with
  | nil =>
    intro st st' h hlen
    simp only [processBatch, Except.ok.injEq] at h
    subst h
    exact hlen
  | cons entry rest ih =>
    intro st st' h hlen
    simp only [processBatch] at h
    by_cases hguard : st.results.length > COLLECTIONS_TO_GATHER_SIZE ∨
        st.checked ≥ MAX_COLLECTIONS_TO_CHECK
    · rw [if_pos hguard] at h
      simp only [Except.ok.injEq] at h
      subst h
      exact hlen
    · rw [if_neg hguard] at h
      have hle : st.results.length ≤ COLLECTIONS_TO_GATHER_SIZE := by omega
      cases hid : entry.id with
      | none =>
        simp only [hid] at h
        exact Except.noConfusion h
      | some cid =>
        simp only [hid] at h
        cases hf : fetchCollectionItemCount env cid with
        | error e =>
          simp only [hf] at h
          exact ih _ _ h hlen
        | ok copt =>
          cases copt with
          | none =>
            simp only [hf] at h
            exact ih _ _ h hlen
          | some c =>
            simp only [hf] at h
            by_cases hsm : MIN_ITEMS_CONSIDERED_SMALL ≤ c ∧
                c ≤ MAX_ITEMS_CONSIDERED_SMALL
            · simp only [if_pos hsm] at h
              refine ih _ _ h ?_
              simp only [List.length_append, List.length_cons, List.length_nil]
              omega
            · simp only [if_neg hsm] at h
              exact ih _ _ h hlen

/-- The `while` loop preserves the `COLLECTIONS_TO_GATHER_SIZE + 1` bound on
the result list. -/
theorem scanLoop_length_le (env : Env) :
    ∀ (fuel start : Nat) (st : ScanState) (rs : List CollectionInfo),
      (scanLoop env fuel start st).1 = .finished rs →
      st.results.length ≤ COLLECTIONS_TO_GATHER_SIZE + 1 →
      rs.length ≤ COLLECTIONS_TO_GATHER_SIZE + 1 := by
  intro fuel
  induction fuel with
  | zero =>
    intro start st rs h hlen
    simp only [scanLoop] at h
    by_cases hcond : st.done = false ∧ st.checked < MAX_COLLECTIONS_TO_CHECK ∧
        st.results.length ≤ COLLECTIONS_TO_GATHER_SIZE
    · rw [if_pos hcond] at h
      simp at h
    · rw [if_neg hcond] at h
      simp only [ScanResult.finished.injEq] at h
      subst h
      exact hlen
  | succ n ih =>
    intro start st rs h hlen
    simp only [scanLoop] at h
    by_cases hcond : st.done = false ∧ st.checked < MAX_COLLECTIONS_TO_CHECK ∧
        st.results.length ≤ COLLECTIONS_TO_GATHER_SIZE
    · rw [if_pos hcond] at h
      cases hb : env.batches start with
      | error e =>
        simp only [hb] at h
        exact ScanResult.noConfusion h
      | ok batch =>
        cases batch with
        | nil =>
          simp only [hb, ScanResult.finished.injEq] at h
          subst h
          exact hlen
        | cons entry restBatch =>
          simp only [hb] at h
          rcases hpb : processBatch env (entry :: restBatch) st with ⟨r, tr⟩
          cases r with
          | error e =>
            simp only [hpb] at h
            exact ScanResult.noConfusion h
          | ok st' =>
            simp only [hpb] at h
            have hpb1 : (processBatch env (entry :: restBatch) st).1 = .ok st' := by
              rw [hpb]
            exact ih _ _ _ h (processBatch_length_le env _ st st' hpb1 hlen)
    · rw [if_neg hcond] at h
      simp only [ScanResult.finished.injEq] at h
      subst h
      exact hlen

/-- A four-collection server, every collection holding 10 items: the run
gathers three results, one past the gather target of two. -/
def envC8 : Env where
  batches := fun start =>
    if start = 0 then
      .ok [⟨some "a", some "A"⟩, ⟨some "b", some "B"⟩,
        ⟨some "c", some "C"⟩, ⟨some "d", some "D"⟩]
    else .ok []
  search := fun _ => .ok ⟨some ⟨some 10⟩⟩

/-- C8: the result list of `find_small_collections` never holds more than
`COLLECTIONS_TO_GATHER_SIZE + 1` records (three, with the shipped
constants), and the bound is reached: on a server of four small collections
the run returns exactly three records, one past the gather target. -/
theorem spec2proof_C8 :
    (∀ (env : Env) (fuel : Nat) (rs : List CollectionInfo),
        (findSmallCollections env fuel).1 = .finished rs →
        rs.length ≤ COLLECTIONS_TO_GATHER_SIZE + 1) ∧
    (findSmallCollections envC8 1).1 =
      .finished [{ id := "a", name := some "A", count := 10 },
        { id := "b", name := some "B", count := 10 },
        { id := "c", name := some "C", count := 10 }] := by
  constructor
  · intro env fuel rs h
    exact scanLoop_length_le env fuel 0 _ rs h (by simp)
  · rfl

/-- Witness for C8: the three-record list returned on the concrete server is
within the bound. -/
theorem spec2proof_C8_witness :
    ([{ id := "a", name := some "A", count := 10 },
      { id := "b", name := some "B", count := 10 },
      { id := "c", name := some "C", count := 10 }] :
        List CollectionInfo).length ≤ COLLECTIONS_TO_GATHER_SIZE + 1 :=
  spec2proof_C8.1 envC8 1
    [{ id := "a", name := some "A", count := 10 },
      { id := "b", name := some "B", count := 10 },
      { id := "c", name := some "C", count := 10 }] (by decide)

/-- A printable ASCII character (code in `[0x20, 0x7f)`) other than the
backslash and the active quote is kept as itself by the repr escape. -/
theorem pyCharEscape_printable (q c : Char) (h1 : 0x20 ≤ c.toNat)
    (h2 : c.toNat < 0x7f) (h3 : c ≠ q) (h4 : c ≠ '\\') :
    pyCharEscape q c = [c] := by
  have hn : c ≠ '\n' := by
    intro hc
    rw [hc] at h1
    exact absurd h1 (by decide)
  have hr : c ≠ '\r' := by
    intro hc
    rw [hc] at h1
    exact absurd h1 (by decide)
  have ht : c ≠ '\t' := by
    intro hc
    rw [hc] at h1
    exact absurd h1 (by decide)
  have hx : ¬ (c.toNat < 0x20 ∨ c.toNat = 0x7f) := by omega
  simp [pyCharEscape, h3, h4, hn, hr, ht, hx]

/-- Flattening the escapes of characters that escape to themselves gives the
original character list back. -/
theorem flatten_map_pyCharEscape (q : Char) :
    ∀ (l : List Char), (∀ c ∈ l, pyCharEscape q c = [c]) →
      (l.map (pyCharEscape q)).flatten = l := by
  intro l
  induction l with
  | nil => intro _; rfl
  | cons c cs ih =>
    intro h
    rw [List.map_cons, List.flatten_cons, h c (List.mem_cons_self c cs),
      ih (fun x hx => h x (List.mem_cons_of_mem _ hx))]
    rfl

/-- On a string of printable ASCII characters (so free of control
characters) holding no quote and no backslash, Python's repr is just the
string between two single quotes. -/
theorem pyReprString_plain (s : String)
    (h : ∀ c ∈ s.toList, 0x20 ≤ c.toNat ∧ c.toNat < 0x7f ∧
      c ≠ '\'' ∧ c ≠ '"' ∧ c ≠ '\\') :
    pyReprString s = "'" ++ s ++ "'" := by
  have hcond : ¬ (s.toList.contains '\'' ∧ ¬ s.toList.contains '"') := by
    rintro ⟨h1, -⟩
    simp at h1
    exact (h _ h1).2.2.1 rfl
  have hesc : ∀ c ∈ s.toList, pyCharEscape '\'' c = [c] := by
    intro c hc
    obtain ⟨h1, h2, h3, h4, h5⟩ := h c hc
    exact pyCharEscape_printable '\'' c h1 h2 h3 h5
  simp only [pyReprString]
  rw [if_neg hcond, flatten_map_pyCharEscape _ _ hesc]
  apply String.ext
  simp only [String.data_append]
  rfl

/-- A one-collection server whose only summary has no `'name'` key and whose
collection holds 10 items. -/
def envC7 : Env where
  batches := fun start =>
    if start = 0 then .ok [⟨some "c1", none⟩] else .ok []
  search := fun _ => .ok ⟨some ⟨some 10⟩⟩

/-- C7 fails as stated: on a server whose qualifying collection lacks a
name, `main` prints `c1 (None) has 10 items` — the `!r` conversion renders
the missing name as `None` with no single quotes around it, so the line is
not of the form `<id> ('<name>') has <count> items` for any name string. -/
theorem spec2proof_C7_counterexample :
    mainOutput envC7 2 = some ["c1 (None) has 10 items"] ∧
    ¬ ∃ nm : String, "c1 (None) has 10 items" =
      "c1 ('" ++ nm ++ "') has 10 items" := by
  constructor
  · rfl
  · rintro ⟨nm, hnm⟩
    have hcount := congrArg (fun t => t.data.count '\'') hnm
    simp only [String.data_append, List.count_append] at hcount
    have h0 : ("c1 (None) has 10 items".data.count '\'') = 0 := by decide
    have h1 : ("c1 ('".data.count '\'') = 1 := by decide
    have h2 : ("') has 10 items".data.count '\'') = 1 := by decide
    rw [h0, h1, h2] at hcount
    omega

/-- C7 amended: `main` prints exactly one line per returned collection, in
list order, of the form `<id> (<repr of name>) has <count> items`; when the
name is a string of printable ASCII characters (hence free of control
characters) holding no quote and no backslash, the line reads
`<id> ('<name>') has <count> items` as the spec says, but a collection
without a name prints `(None)` with no quotes. -/
theorem spec2proof_C7_amended :
    ∀ (env : Env) (fuel : Nat) (rs : List CollectionInfo),
      (findSmallCollections env fuel).1 = .finished rs →
      mainOutput env fuel = some (rs.map formatLine) ∧
      ∀ info ∈ rs,
        (info.name = none →
          formatLine info =
            info.id ++ " (None) has " ++ toString info.count ++ " items") ∧
        ∀ s, info.name = some s →
          (∀ c ∈ s.toList, 0x20 ≤ c.toNat ∧ c.toNat < 0x7f ∧
            c ≠ '\'' ∧ c ≠ '"' ∧ c ≠ '\\') →
          formatLine info =
            info.id ++ " ('" ++ s ++ "') has " ++ toString info.count ++ " items" := by
  intro env fuel rs h
  constructor
  · simp only [mainOutput, h]
  · intro info _
    constructor
    · intro hn
      simp only [formatLine, pyRepr, hn]
      simp only [String.append_assoc]
      congr 1
    · intro s hs hclean
      simp only [formatLine, hs, pyRepr, pyReprString_plain s hclean]
      simp only [String.append_assoc]
      congr 1

/-- Witness for the amended C7 on the concrete one-collection server. -/
theorem spec2proof_C7_witness :
    mainOutput envC7 2 =
      some ([{ id := "c1", name := none, count := 10 }].map formatLine) :=
  (spec2proof_C7_amended envC7 2
    [{ id := "c1", name := none, count := 10 }] (by decide)).1
